import Mathlib

/-!
Verification development for a mediasoup-based video-conference signaling
server (`src/server.js`) and its browser client (`src/unnamed/part_001`).

The server keeps two global insertion-ordered maps, `peers` and `rooms`
(JavaScript `Map` / `Set`), and handles signaling messages
(`joinRoom`, `createTransport`, `connectTransport`, `produce`, `consume`,
`resumeConsumer`) plus peer disconnection.  We embed that state machine
shallowly: JS `Map`s become insertion-ordered association lists, the
opaque media engine (mediasoup router / transports) becomes an explicit
environment of pure functions, engine-assigned ids become a `nextId`
counter, and every handler becomes a pure function from state to state
plus a list of outbound frames (a frame is a destination peer id and a
message).  Socket readiness (`readyState === OPEN`) is external mutable
state, so it lives in the environment as a predicate on peer ids.
-/

namespace MSServer

abbrev PeerId := Nat
abbrev RoomId := Nat
abbrev ProducerId := Nat
abbrev ConsumerId := Nat
abbrev TransportId := Nat
abbrev Caps := Nat
abbrev Kind := String

inductive Direction where
  | send
  | recv
deriving DecidableEq, Repr

/-- Insertion-ordered association list, modelling a JavaScript `Map`:
`aset` updates in place when the key exists and appends otherwise,
matching `Map.prototype.set`; iteration order is list order. -/
abbrev AList (K V : Type) := List (K × V)

def aget {K V : Type} [DecidableEq K] (m : AList K V) (k : K) : Option V :=
  match m with
  | [] => none
  | (k', v) :: rest => if k' = k then some v else aget rest k

def aset {K V : Type} [DecidableEq K] (m : AList K V) (k : K) (v : V) : AList K V :=
  match m with
  | [] => [(k, v)]
  | (k', v') :: rest => if k' = k then (k, v) :: rest else (k', v') :: aset rest k v

def adel {K V : Type} [DecidableEq K] (m : AList K V) (k : K) : AList K V :=
  match m with
  | [] => []
  | (k', v') :: rest => if k' = k then adel rest k else (k', v') :: adel rest k

/-- Ordered set of peer ids, modelling a JavaScript `Set` (`Set.prototype.add`
appends only when absent). -/
def sadd (l : List PeerId) (x : PeerId) : List PeerId :=
  if x ∈ l then l else l ++ [x]

/-- `Set.prototype.delete` for peer-id sets. -/
def sdel (l : List PeerId) (x : PeerId) : List PeerId :=
  match l with
  | [] => []
  | y :: rest => if y = x then sdel rest x else y :: sdel rest x

/-- Server-side bookkeeping for one transport: `peer.transports` stores
`{ transport, direction }`; the engine transport handle is opaque. -/
structure TransportEntry where
  direction : Direction
deriving DecidableEq, Repr

/-- Server-side bookkeeping for one producer: `peer.producers` stores
`{ producer, kind }`; the engine producer handle is opaque and its id is
the map key. -/
structure ProducerEntry where
  kind : Kind
deriving DecidableEq, Repr

/-- Server-side bookkeeping for one consumer: `peer.consumers` stores
`{ consumer, producerId, producerPeerId }`.  The engine consumer handle
carries its id (the map key), its kind, its rtpParameters and a paused
flag (consumers are created paused; `resume()` clears the flag, and
resuming a non-paused consumer is a no-op per the engine interface). -/
structure ConsumerEntry where
  producerId : ProducerId
  producerPeerId : PeerId
  kind : Kind
  rtpParameters : Nat
  paused : Bool
deriving DecidableEq, Repr

/-- One entry of the global `peers` map (`server.js` connection handler). -/
structure Peer where
  id : PeerId
  transports : AList TransportId TransportEntry
  producers : AList ProducerId ProducerEntry
  consumers : AList ConsumerId ConsumerEntry
  roomId : Option RoomId
deriving DecidableEq, Repr

/-- One entry of the global `rooms` map: `{ id, peers: Set }`. -/
structure Room where
  id : RoomId
  peers : List PeerId
deriving DecidableEq, Repr

/-- The server's global mutable state: the `peers` and `rooms` maps plus a
counter from which engine-assigned ids (transport, producer, consumer)
are drawn, so freshly created objects get ids not yet in use. -/
structure ServerState where
  peers : AList PeerId Peer
  rooms : AList RoomId Room
  nextId : Nat
deriving DecidableEq, Repr

/-- The opaque collaborators: the mediasoup router (`canConsume`, consumer
rtp parameters, router capabilities) and the sockets' readiness
(`socket.readyState === WebSocket.OPEN`, keyed by the owning peer). -/
structure Env where
  routerCaps : Caps
  canConsume : ProducerId → Caps → Bool
  rtpParams : ProducerId → Caps → Nat
  isOpen : PeerId → Bool

/-- Messages the server sends to clients (`sendMessage(socket, type, payload)`). -/
inductive OutMsg where
  | connected (peerId : PeerId)
  | routerRtpCapabilities (caps : Caps)
  | roomJoined (roomId : RoomId) (peersL : List PeerId)
      (existingProducers : List (PeerId × List (ProducerId × Kind)))
  | newPeer (peerId : PeerId)
  | transportCreated (transportId : TransportId) (direction : Direction)
  | transportConnected (transportId : TransportId)
  | produced (producerId : ProducerId) (kind : Kind)
  | newProducer (peerId : PeerId) (producerId : ProducerId) (kind : Kind)
  | consumed (consumerId : ConsumerId) (producerId : ProducerId)
      (producerPeerId : PeerId) (kind : Kind) (rtpParameters : Nat)
  | consumerResumed (consumerId : ConsumerId)
  | peerLeft (peerId : PeerId)
  | errorMsg (message : String)
deriving DecidableEq, Repr

/-- Messages clients send to the server (the `routeIncomingMessage` dispatch
table); opaque pass-through payload fields (dtls parameters, rtp
parameters) are omitted.  `unknown` covers any type missing from the
dispatch table. -/
inductive InMsg where
  | getRouterRtpCapabilities
  | joinRoom (roomId : RoomId)
  | createTransport (direction : Direction)
  | connectTransport (transportId : TransportId)
  | produce (transportId : TransportId) (kind : Kind)
  | consume (producerId : ProducerId) (rtpCapabilities : Caps)
  | resumeConsumer (consumerId : ConsumerId)
  | unknown (ty : String)
deriving DecidableEq, Repr

/-- A frame on the wire: destination peer and message. -/
abbrev Frame := PeerId × OutMsg

/-- `sendMessage(socket, type, payload)`: sends only when the socket's
readyState is OPEN, otherwise silently does nothing. -/
def sendMessage (env : Env) (dest : PeerId) (m : OutMsg) : List Frame :=
  if env.isOpen dest then [(dest, m)] else []

/-- The broadcast loops (`existingPeers.forEach`, `room.peers.forEach`):
look each peer id up in the global map, check its socket is OPEN, and
send; otherwise skip. -/
def notifyFrames (env : Env) (m : AList PeerId Peer) (l : List PeerId)
    (msg : OutMsg) : List Frame :=
  match l with
  | [] => []
  | pid :: rest =>
    if (aget m pid).isSome ∧ env.isOpen pid then
      (pid, msg) :: notifyFrames env m rest msg
    else
      notifyFrames env m rest msg

/-- The `existingPeersInfo` accumulation in `addPeerToRoomAndNotifyOthers`:
for each existing member, collect its producers as `{producerId, kind}`
and keep only members with at least one producer. -/
def collectProducersInfo (m : AList PeerId Peer) (l : List PeerId) :
    List (PeerId × List (ProducerId × Kind)) :=
  match l with
  | [] => []
  | pid :: rest =>
    match aget m pid with
    | none => collectProducersInfo m rest
    | some p =>
      let prods := p.producers.map (fun kv => (kv.1, kv.2.kind))
      if prods.isEmpty then collectProducersInfo m rest
      else (pid, prods) :: collectProducersInfo m rest

/-- `sendRouterCapabilitiesToPeer`. -/
def sendRouterCapabilitiesToPeer (env : Env) (s : ServerState) (peer : Peer) :
    ServerState × List Frame :=
  (s, sendMessage env peer.id (OutMsg.routerRtpCapabilities env.routerCaps))

/-- `addPeerToRoomAndNotifyOthers`: create the room if absent, snapshot the
membership before inserting the joining peer, insert, reply
`roomJoined` with the snapshot and the snapshot members' producers, then
broadcast `newPeer` to the snapshot members. -/
def addPeerToRoomAndNotifyOthers (env : Env) (s : ServerState) (peer : Peer)
    (roomId : RoomId) : ServerState × List Frame :=
  let room :=
    match aget s.rooms roomId with
    | some r => r
    | none => { id := roomId, peers := [] }
  let existingPeers := sdel room.peers peer.id
  let room' := { room with peers := sadd room.peers peer.id }
  let peer' := { peer with roomId := some roomId }
  let s' : ServerState :=
    { s with
      rooms := aset s.rooms roomId room'
      peers := aset s.peers peer.id peer' }
  let existingPeersInfo := collectProducersInfo s.peers existingPeers
  let out :=
    sendMessage env peer.id
      (OutMsg.roomJoined roomId existingPeers existingPeersInfo) ++
    notifyFrames env s.peers existingPeers (OutMsg.newPeer peer.id)
  (s', out)

/-- `createTransportAndSendParameters`: create a WebRTC transport of the
requested direction (engine assigns a fresh id), store it in
`peer.transports` keyed by that id, and reply `transportCreated`. -/
def createTransportAndSendParameters (env : Env) (s : ServerState)
    (peer : Peer) (direction : Direction) : ServerState × List Frame :=
  let tid := s.nextId
  let peer' := { peer with transports := aset peer.transports tid { direction } }
  let s' : ServerState :=
    { s with peers := aset s.peers peer.id peer', nextId := s.nextId + 1 }
  (s', sendMessage env peer.id (OutMsg.transportCreated tid direction))

/-- `finalizeTransportConnection`: look the transport up; throw
`Transport not found` if absent, otherwise connect (engine call, no
bookkeeping change) and reply `transportConnected`. -/
def finalizeTransportConnection (env : Env) (s : ServerState) (peer : Peer)
    (transportId : TransportId) : Except String (ServerState × List Frame) :=
  match aget peer.transports transportId with
  | none => Except.error "Transport not found"
  | some _ =>
    Except.ok (s, sendMessage env peer.id (OutMsg.transportConnected transportId))

/-- `createProducerAndBroadcastToPeers`: look the transport up (throwing
`Transport not found` if absent), create a producer with a fresh engine
id, store it, reply `produced`, and broadcast `newProducer` to the other
members of the peer's room (if any). -/
def createProducerAndBroadcastToPeers (env : Env) (s : ServerState)
    (peer : Peer) (transportId : TransportId) (kind : Kind) :
    Except String (ServerState × List Frame) :=
  match aget peer.transports transportId with
  | none => Except.error "Transport not found"
  | some _ =>
    let producerId := s.nextId
    let peer' := { peer with producers := aset peer.producers producerId { kind } }
    let s' : ServerState :=
      { s with peers := aset s.peers peer.id peer', nextId := s.nextId + 1 }
    let broadcast :=
      match peer.roomId with
      | none => []
      | some rid =>
        match aget s.rooms rid with
        | none => []
        | some room =>
          notifyFrames env s.peers (sdel room.peers peer.id)
            (OutMsg.newProducer peer.id producerId kind)
    Except.ok (s', sendMessage env peer.id (OutMsg.produced producerId kind) ++ broadcast)

/-- The producer-lookup loop in `createConsumerForRemoteProducer`:
`for (const [peerId, p] of peers.entries())`, first peer whose
`producers` map has the producer id, in insertion order. -/
def findProducerHolder (ps : AList PeerId Peer) (producerId : ProducerId) :
    Option (PeerId × Peer × ProducerEntry) :=
  match ps with
  | [] => none
  | (pid, p) :: rest =>
    match aget p.producers producerId with
    | some pe => some (pid, p, pe)
    | none => findProducerHolder rest producerId

/-- `Array.from(peer.transports.values()).find(t => t.direction === 'recv')`. -/
def findRecvTransport (ts : AList TransportId TransportEntry) :
    Option (TransportId × TransportEntry) :=
  match ts with
  | [] => none
  | (tid, te) :: rest =>
    if te.direction = Direction.recv then some (tid, te)
    else findRecvTransport rest

/-- `createConsumerForRemoteProducer`: locate the producer by scanning all
connected peers (no room-membership check), throw `Producer not found` /
`Cannot consume` / `Recv transport not found` as in the source, then
create a paused consumer with a fresh engine id on the first recv
transport, store it under the consumer id, and reply `consumed`. -/
def createConsumerForRemoteProducer (env : Env) (s : ServerState) (peer : Peer)
    (producerId : ProducerId) (rtpCapabilities : Caps) :
    Except String (ServerState × List Frame) :=
  match findProducerHolder s.peers producerId with
  | none => Except.error "Producer not found"
  | some (producerPeerId, _, pe) =>
    if env.canConsume producerId rtpCapabilities = false then
      Except.error "Cannot consume"
    else
      match findRecvTransport peer.transports with
      | none => Except.error "Recv transport not found"
      | some _ =>
        let consumerId := s.nextId
        let params := env.rtpParams producerId rtpCapabilities
        let entry : ConsumerEntry :=
          { producerId := producerId
            producerPeerId := producerPeerId
            kind := pe.kind
            rtpParameters := params
            paused := true }
        let peer' := { peer with consumers := aset peer.consumers consumerId entry }
        let s' : ServerState :=
          { s with peers := aset s.peers peer.id peer', nextId := s.nextId + 1 }
        Except.ok (s',
          sendMessage env peer.id
            (OutMsg.consumed consumerId producerId producerPeerId pe.kind params))

/-- `resumePausedConsumer`: look the consumer up (throwing
`Consumer not found` if absent), forward `resume()` to the engine
unconditionally (clears the paused flag; a no-op when already resumed),
and reply `consumerResumed`. -/
def resumePausedConsumer (env : Env) (s : ServerState) (peer : Peer)
    (consumerId : ConsumerId) : Except String (ServerState × List Frame) :=
  match aget peer.consumers consumerId with
  | none => Except.error "Consumer not found"
  | some ce =>
    let peer' :=
      { peer with consumers := aset peer.consumers consumerId { ce with paused := false } }
    let s' : ServerState := { s with peers := aset s.peers peer.id peer' }
    Except.ok (s', sendMessage env peer.id (OutMsg.consumerResumed consumerId))

/-- Result of routing one inbound message: the new state, the frames sent,
and the server-side console warnings emitted. -/
structure StepResult where
  state : ServerState
  out : List Frame
  warn : List String
deriving DecidableEq, Repr

/-- The try/catch of the socket `message` handler: a successful handler
run yields its state and frames; a thrown error leaves the state as it
was and sends an `error` reply to the requesting socket. -/
def wrapCatch (env : Env) (s : ServerState) (peerId : PeerId)
    (h : Except String (ServerState × List Frame)) : StepResult :=
  match h with
  | Except.ok r => { state := r.1, out := r.2, warn := [] }
  | Except.error e =>
    { state := s, out := sendMessage env peerId (OutMsg.errorMsg e), warn := [] }

/-- `routeIncomingMessage` together with the surrounding try/catch of the
socket `message` handler: a missing peer or an unknown type only logs a
warning; a handler error is caught and turned into an `error` reply to
the requesting socket. -/
def routeIncomingMessage (env : Env) (s : ServerState) (peerId : PeerId)
    (msg : InMsg) : StepResult :=
  match aget s.peers peerId with
  | none => { state := s, out := [], warn := ["Peer not found"] }
  | some peer =>
    match msg with
    | InMsg.unknown ty =>
      { state := s, out := [], warn := ["Unknown message type: " ++ ty] }
    | InMsg.getRouterRtpCapabilities =>
      let r := sendRouterCapabilitiesToPeer env s peer
      { state := r.1, out := r.2, warn := [] }
    | InMsg.joinRoom roomId =>
      let r := addPeerToRoomAndNotifyOthers env s peer roomId
      { state := r.1, out := r.2, warn := [] }
    | InMsg.createTransport direction =>
      let r := createTransportAndSendParameters env s peer direction
      { state := r.1, out := r.2, warn := [] }
    | InMsg.connectTransport transportId =>
      wrapCatch env s peerId (finalizeTransportConnection env s peer transportId)
    | InMsg.produce transportId kind =>
      wrapCatch env s peerId (createProducerAndBroadcastToPeers env s peer transportId kind)
    | InMsg.consume producerId rtpCapabilities =>
      wrapCatch env s peerId
        (createConsumerForRemoteProducer env s peer producerId rtpCapabilities)
    | InMsg.resumeConsumer consumerId =>
      wrapCatch env s peerId (resumePausedConsumer env s peer consumerId)

/-- Sequential processing of a batch of inbound messages (per-connection
arrival order, each wrapped in its own try/catch). -/
def processMessages (env : Env) (s : ServerState) :
    List (PeerId × InMsg) → ServerState × List Frame
  | [] => (s, [])
  | (pid, m) :: rest =>
    let r := routeIncomingMessage env s pid m
    let r' := processMessages env r.state rest
    (r'.1, r.out ++ r'.2)

/-- Observable actions of `handlePeerDisconnection`, in program order. -/
inductive Evt where
  | closedTransport (transportId : TransportId)
  | sent (dest : PeerId) (m : OutMsg)
  | roomDeleted (roomId : RoomId)
  | peerRemoved (peerId : PeerId)
deriving DecidableEq, Repr

/-- `handlePeerDisconnection`: close all the peer's transports; if it was
in a room, remove it from the member set, notify every remaining member
whose socket is OPEN with `peerLeft`, and delete the room when the member
set became empty; finally delete the peer from the global map.  Returns
the new state and the ordered event trace. -/
def handlePeerDisconnection (env : Env) (s : ServerState) (peerId : PeerId) :
    ServerState × List Evt :=
  match aget s.peers peerId with
  | none => (s, [])
  | some peer =>
    let closeEvts := peer.transports.map (fun kv => Evt.closedTransport kv.1)
    let afterRoom : ServerState × List Evt :=
      match peer.roomId with
      | none => (s, [])
      | some rid =>
        match aget s.rooms rid with
        | none => (s, [])
        | some room =>
          let members := sdel room.peers peerId
          let notifies :=
            (notifyFrames env s.peers members (OutMsg.peerLeft peerId)).map
              (fun f => Evt.sent f.1 f.2)
          if members.isEmpty then
            ({ s with rooms := adel s.rooms rid },
             notifies ++ [Evt.roomDeleted rid])
          else
            ({ s with rooms := aset s.rooms rid { room with peers := members } },
             notifies)
    ({ afterRoom.1 with peers := adel afterRoom.1.peers peerId },
     closeEvts ++ afterRoom.2 ++ [Evt.peerRemoved peerId])

end MSServer

namespace MSClient

open MSServer

/-- Browser client state (`src/unnamed/part_001`, the `state` object),
restricted to the signaling-relevant fields.  `pendingConsumers` is the
ordered queue of producer references received in the `roomJoined`
snapshot, to be consumed once the receive transport exists. -/
structure ClientState where
  deviceCaps : Caps
  sendTransport : Option TransportId
  recvTransport : Option TransportId
  pendingConsumers : List (PeerId × List (ProducerId × Kind))
deriving DecidableEq, Repr

/-- The nested `forEach` drain loop: one `consume` request per producer
reference, outer queue order then inner producer order (FIFO). -/
def pendingConsumeRequests (caps : Caps)
    (q : List (PeerId × List (ProducerId × Kind))) : List InMsg :=
  match q with
  | [] => []
  | (_, prods) :: rest =>
    prods.map (fun pr => InMsg.consume pr.1 caps) ++ pendingConsumeRequests caps rest

/-- `setupLocalMediaAndTransports` (client handler for `roomJoined`):
store the snapshot's producer references as the pending queue and request
the send transport.  The media/UI work is out of scope. -/
def setupLocalMediaAndTransports (c : ClientState) (_roomId : RoomId)
    (_peersL : List PeerId)
    (existingProducers : List (PeerId × List (ProducerId × Kind))) :
    ClientState × List InMsg :=
  ({ c with pendingConsumers := existingProducers },
   [InMsg.createTransport Direction.send])

/-- `configureTransportAndProduce` (client handler for `transportCreated`).
On the send direction: record the send transport and request the recv
transport (the `produce`/`connectTransport` requests are fired by
mediasoup-client engine callbacks, outside this embedding).  On the recv
direction: record the recv transport and, when the pending queue is
non-empty, emit one `consume` request per queued producer reference in
FIFO order and clear the queue. -/
def configureTransportAndProduce (c : ClientState) (transportId : TransportId)
    (direction : Direction) : ClientState × List InMsg :=
  match direction with
  | Direction.send =>
    ({ c with sendTransport := some transportId },
     [InMsg.createTransport Direction.recv])
  | Direction.recv =>
    let c' := { c with recvTransport := some transportId }
    if c'.pendingConsumers.isEmpty then (c', [])
    else
      ({ c' with pendingConsumers := [] },
       pendingConsumeRequests c'.deviceCaps c'.pendingConsumers)

end MSClient

namespace MSServer

/-- Number of transports of a given direction a peer holds. -/
def countDirection (d : Direction) (ts : AList TransportId TransportEntry) : Nat :=
  match ts with
  | [] => 0
  | (_, te) :: rest =>
    (if te.direction = d then 1 else 0) + countDirection d rest

/-- Occurrences of an event in a trace. -/
def countEvt (e : Evt) (l : List Evt) : Nat :=
  match l with
  | [] => 0
  | e' :: rest => (if e' = e then 1 else 0) + countEvt e rest

/-- Occurrences of a peer id in a member list. -/
def countNat (x : PeerId) (l : List PeerId) : Nat :=
  match l with
  | [] => 0
  | y :: rest => (if y = x then 1 else 0) + countNat x rest

/-- Members of a room as recorded in the registry (`[]` when the room is
absent). -/
def roomMembers (s : ServerState) (rid : RoomId) : List PeerId :=
  match aget s.rooms rid with
  | some room => room.peers
  | none => []

/-!  Concrete fixtures used by counterexamples and witnesses. -/

/-- Engine that can always consume, with constant rtp parameters, and all
sockets OPEN. -/
def envT : Env :=
  { routerCaps := 0
    canConsume := fun _ _ => true
    rtpParams := fun _ _ => 7
    isOpen := fun _ => true }

/-- A peer that owns a recv transport and already holds consumer 100 for
producer 5 (owned by peer 2). -/
def peerA : Peer :=
  { id := 1
    transports := [(10, { direction := Direction.recv })]
    producers := []
    consumers := [(100,
      { producerId := 5, producerPeerId := 2, kind := "video"
        rtpParameters := 7, paused := false })]
    roomId := some 0 }

/-- A peer that owns producer 5. -/
def peerB : Peer :=
  { id := 2
    transports := []
    producers := [(5, { kind := "video" })]
    consumers := []
    roomId := some 0 }

/-- Two peers in room 0; peer 1 already consumes peer 2's producer 5. -/
def stateAB : ServerState :=
  { peers := [(1, peerA), (2, peerB)]
    rooms := [(0, { id := 0, peers := [1, 2] })]
    nextId := 101 }

/-- A peer that already holds one send transport. -/
def peerC : Peer :=
  { id := 1
    transports := [(10, { direction := Direction.send })]
    producers := []
    consumers := []
    roomId := none }

/-- A lone connected peer holding one send transport. -/
def stateC : ServerState :=
  { peers := [(1, peerC)], rooms := [], nextId := 20 }

/-- Engine whose `canConsume` predicate always reports incompatible. -/
def envF : Env :=
  { routerCaps := 0
    canConsume := fun _ _ => false
    rtpParams := fun _ _ => 7
    isOpen := fun _ => true }

/-- A peer in room 1 owning producer 5. -/
def peerD : Peer :=
  { id := 3
    transports := []
    producers := [(5, { kind := "video" })]
    consumers := []
    roomId := some 1 }

/-- Requester (peer 1) sits in room 0 while the producer's owner (peer 3)
sits in room 1. -/
def stateCrossRoom : ServerState :=
  { peers := [(1, { peerA with consumers := [] }), (3, peerD)]
    rooms := [(0, { id := 0, peers := [1] }), (1, { id := 1, peers := [3] })]
    nextId := 200 }

end MSServer

namespace MSClient

open MSServer

/-- Client fixture: recv transport not created yet, three producer
references pending (two from peer 1, one from peer 2). -/
def clientFix : ClientState :=
  { deviceCaps := 9
    sendTransport := some 3
    recvTransport := none
    pendingConsumers := [(1, [(5, "video"), (6, "audio")]), (2, [(7, "video")])] }

end MSClient

namespace MSServer

theorem aget_aset_self {K V : Type} [DecidableEq K] (m : AList K V) (k : K) (v : V) :
    aget (aset m k v) k = some v := by
  induction m with
  | nil => simp [aset, aget]
  | cons kv rest ih =>
    by_cases h : kv.1 = k
    · simp [aset, aget, h]
    · simp [aset, aget, h, ih]

theorem aget_aset_ne {K V : Type} [DecidableEq K] (m : AList K V) (k k' : K) (v : V)
    (h : k' ≠ k) : aget (aset m k v) k' = aget m k' := by
  induction m with
  | nil => simp [aset, aget, Ne.symm h]
  | cons kv rest ih =>
    obtain ⟨a, b⟩ := kv
    by_cases hk : a = k
    · subst hk
      simp [aset, aget, Ne.symm h]
    · simp [aset, aget, hk, ih]

theorem aset_aset_self {K V : Type} [DecidableEq K] (m : AList K V) (k : K) (v w : V) :
    aset (aset m k v) k w = aset m k w := by
  induction m with
  | nil => simp [aset]
  | cons kv rest ih =>
    by_cases h : kv.1 = k
    · simp [aset, h]
    · simp [aset, h, ih]

theorem length_aset_of_none {K V : Type} [DecidableEq K] (m : AList K V) (k : K) (v : V)
    (h : aget m k = none) : (aset m k v).length = m.length + 1 := by
  induction m with
  | nil => simp [aset]
  | cons kv rest ih =>
    by_cases hk : kv.1 = k
    · simp [aget, hk] at h
    · simp [aget, hk] at h
      simp [aset, hk, ih h]

theorem aget_adel_self {K V : Type} [DecidableEq K] (m : AList K V) (k : K) :
    aget (adel m k) k = none := by
  induction m with
  | nil => simp [adel, aget]
  | cons kv rest ih =>
    by_cases h : kv.1 = k
    · simp [adel, h, ih]
    · simp [adel, aget, h, ih]

theorem mem_of_mem_sdel {l : List PeerId} {x y : PeerId} (h : y ∈ sdel l x) : y ∈ l := by
  induction l with
  | nil => simp [sdel] at h
  | cons z rest ih =>
    by_cases hz : z = x
    · simp [sdel, hz] at h
      exact List.mem_cons_of_mem _ (ih h)
    · simp [sdel, hz] at h
      rcases h with h | h
      · exact h ▸ List.mem_cons_self z rest
      · exact List.mem_cons_of_mem _ (ih h)

theorem not_mem_sdel_self (l : List PeerId) (x : PeerId) : x ∉ sdel l x := by
  induction l with
  | nil => simp [sdel]
  | cons z rest ih =>
    by_cases hz : z = x
    · simpa [sdel, hz] using ih
    · simp [sdel, hz, ih, Ne.symm hz]

theorem mem_sadd_self (l : List PeerId) (x : PeerId) : x ∈ sadd l x := by
  by_cases h : x ∈ l <;> simp [sadd, h]

theorem countNat_eq_zero_of_not_mem {l : List PeerId} {x : PeerId} (h : x ∉ l) :
    countNat x l = 0 := by
  induction l with
  | nil => simp [countNat]
  | cons y rest ih =>
    simp only [List.mem_cons, not_or] at h
    simp [countNat, Ne.symm h.1, ih h.2]

theorem countNat_eq_one_of_nodup {l : List PeerId} {x : PeerId} (hnd : l.Nodup)
    (hx : x ∈ l) : countNat x l = 1 := by
  induction l with
  | nil => simp at hx
  | cons y rest ih =>
    rcases List.mem_cons.mp hx with h | h
    · subst h
      simp [countNat, countNat_eq_zero_of_not_mem (List.Nodup.not_mem hnd)]
    · have hy : y ≠ x := by
        intro he
        exact (List.Nodup.not_mem hnd) (he ▸ h)
      simp [countNat, hy, ih (List.Nodup.of_cons hnd) h]

theorem fst_mem_of_mem_collectProducersInfo {m : AList PeerId Peer}
    {l : List PeerId} {x : PeerId × List (ProducerId × Kind)}
    (h : x ∈ collectProducersInfo m l) : x.1 ∈ l := by
  induction l with
  | nil => simp [collectProducersInfo] at h
  | cons pid rest ih =>
    simp only [collectProducersInfo] at h
    rcases hg : aget m pid with _ | p
    · rw [hg] at h
      exact List.mem_cons_of_mem _ (ih h)
    · rw [hg] at h
      by_cases hemp : (p.producers.map (fun kv => (kv.1, kv.2.kind))).isEmpty
      · simp [hemp] at h
        exact List.mem_cons_of_mem _ (ih h)
      · simp [hemp] at h
        rcases h with h | h
        · simp [h]
        · exact List.mem_cons_of_mem _ (ih h)

theorem isOpen_of_mem_sendMessage {env : Env} {d : PeerId} {m : OutMsg} {f : Frame}
    (h : f ∈ sendMessage env d m) : env.isOpen f.1 = true := by
  by_cases ho : env.isOpen d
  · simp [sendMessage, ho] at h
    simp [h, ho]
  · simp [sendMessage, ho] at h

theorem isOpen_of_mem_notifyFrames {env : Env} {m : AList PeerId Peer}
    {l : List PeerId} {msg : OutMsg} {f : Frame}
    (h : f ∈ notifyFrames env m l msg) : env.isOpen f.1 = true := by
  induction l with
  | nil => simp [notifyFrames] at h
  | cons pid rest ih =>
    by_cases hc : (aget m pid).isSome ∧ env.isOpen pid
    · simp [notifyFrames, hc] at h
      rcases h with h | h
      · simp [h, hc.2]
      · exact ih h
    · simp [notifyFrames, hc] at h
      exact ih h

theorem notifyFrames_all_open {env : Env} {m : AList PeerId Peer}
    {l : List PeerId} {msg : OutMsg}
    (h : ∀ q ∈ l, (aget m q).isSome = true ∧ env.isOpen q = true) :
    notifyFrames env m l msg = l.map (fun q => (q, msg)) := by
  induction l with
  | nil => simp [notifyFrames]
  | cons pid rest ih =>
    have hp := h pid (List.mem_cons_self pid rest)
    simp [notifyFrames, hp.1, hp.2,
      ih (fun q hq => h q (List.mem_cons_of_mem _ hq))]

theorem countEvt_append (e : Evt) (l1 l2 : List Evt) :
    countEvt e (l1 ++ l2) = countEvt e l1 + countEvt e l2 := by
  induction l1 with
  | nil => simp [countEvt]
  | cons x rest ih => simp [countEvt, ih]; omega

theorem countEvt_sent_map_closed (q : PeerId) (msg : OutMsg)
    (l : AList TransportId TransportEntry) :
    countEvt (Evt.sent q msg) (l.map (fun kv => Evt.closedTransport kv.1)) = 0 := by
  induction l with
  | nil => simp [countEvt]
  | cons kv rest ih => simp [countEvt, ih]

theorem countEvt_sent_map_sent (q : PeerId) (msg : OutMsg) (others : List PeerId) :
    countEvt (Evt.sent q msg) (others.map (fun p => Evt.sent p msg)) =
      countNat q others := by
  induction others with
  | nil => simp [countEvt, countNat]
  | cons p rest ih =>
    by_cases hp : p = q
    · simp [countEvt, countNat, hp, ih]
    · simp [countEvt, countNat, hp, ih]

end MSServer

namespace MSServer

theorem countDirection_aset_fresh (ts : AList TransportId TransportEntry)
    (k : TransportId) (d : Direction) (h : aget ts k = none) :
    countDirection d (aset ts k { direction := d }) = countDirection d ts + 1 := by
  induction ts with
  | nil => simp [aset, countDirection]
  | cons kv rest ih =>
    obtain ⟨a, te⟩ := kv
    by_cases hk : a = k
    · simp [aget, hk] at h
    · simp [aget, hk] at h
      simp [aset, hk, countDirection, ih h]
      omega

theorem getLast?_append_singleton {α : Type} (l : List α) (a : α) :
    (l ++ [a]).getLast? = some a := by
  induction l with
  | nil => rfl
  | cons x rest ih =>
    rw [List.cons_append, List.getLast?_cons, ih]
    cases rest <;> simp

/-- C5 counterexample: with peer 1 connected and its socket OPEN, routing a
message of unknown type sends no frame at all to the requesting
connection, refuting the claim that a warning reply is produced. -/
theorem unknown_type_no_reply_counterexample :
    (routeIncomingMessage envT stateC 1 (InMsg.unknown "bogus")).out = [] ∧
    envT.isOpen 1 = true ∧
    (aget stateC.peers 1).isSome = true := by
  decide

/-- C5 (amended): for every connected peer, routing a message whose type
is not in the dispatch table logs a server-side warning, sends nothing to
the requesting connection, leaves the state unchanged, and completes
normally. -/
theorem unknown_type_warns_without_reply (env : Env) (s : ServerState)
    (peerId : PeerId) (ty : String) (peer : Peer)
    (hpeer : aget s.peers peerId = some peer) :
    routeIncomingMessage env s peerId (InMsg.unknown ty) =
      { state := s, out := [], warn := ["Unknown message type: " ++ ty] } := by
  simp [routeIncomingMessage, hpeer]

theorem unknown_type_warns_without_reply_witness :
    routeIncomingMessage envT stateC 1 (InMsg.unknown "bogus") =
      { state := stateC, out := [], warn := ["Unknown message type: bogus"] } :=
  unknown_type_warns_without_reply envT stateC 1 "bogus" peerC (by decide)

/-- C3 counterexample: a peer that already holds a send transport and
handles a `createTransport` request for direction `send` ends up holding
two send transports, refuting the claimed at-most-one-per-direction
invariant. -/
theorem two_send_transports_counterexample :
    ((aget (createTransportAndSendParameters envT stateC peerC
        Direction.send).1.peers 1).map
      (fun p => countDirection Direction.send p.transports)) = some 2 := by
  decide

/-- C3 (amended): handling a `createTransport` request always stores one
more transport, keyed by a fresh engine id, with no check against the
transports the peer already holds, so the count for the requested
direction always grows by one. -/
theorem createTransport_always_adds_entry (env : Env) (s : ServerState)
    (peer : Peer) (d : Direction)
    (hfresh : aget peer.transports s.nextId = none) :
    ∃ peer',
      aget (createTransportAndSendParameters env s peer d).1.peers peer.id =
        some peer' ∧
      peer'.transports = aset peer.transports s.nextId { direction := d } ∧
      countDirection d peer'.transports = countDirection d peer.transports + 1 := by
  refine ⟨{ peer with transports := aset peer.transports s.nextId { direction := d } },
    ?_, rfl, countDirection_aset_fresh peer.transports s.nextId d hfresh⟩
  simp [createTransportAndSendParameters, aget_aset_self]

theorem createTransport_always_adds_entry_witness :
    ∃ peer',
      aget (createTransportAndSendParameters envT stateC peerC
        Direction.send).1.peers 1 = some peer' ∧
      peer'.transports = aset peerC.transports 20 { direction := Direction.send } ∧
      countDirection Direction.send peer'.transports =
        countDirection Direction.send peerC.transports + 1 :=
  createTransport_always_adds_entry envT stateC peerC Direction.send (by decide)

/-- C1 counterexample: peer 1 already holds consumer 100 for producer 5;
a further `consume` request for producer 5 succeeds and creates a second,
distinct consumer (id 101), so the consumer map gains a new entry,
refuting the claimed no-op duplicate guard. -/
theorem duplicate_consume_counterexample :
    (createConsumerForRemoteProducer envT stateAB peerA 5 0).toOption.map
      (fun r => ((aget r.1.peers 1).map (fun p => p.consumers.map Prod.fst), r.2)) =
    some (some [100, 101], [(1, OutMsg.consumed 101 5 2 "video" 7)]) := by
  decide

/-- C1 (amended): there is no duplicate-subscription guard: a `consume`
request from a peer that already holds a consumer for the same producer
id creates a second, distinct consumer with a fresh id; the existing
entry is kept and the consumer map grows by one entry. -/
theorem duplicate_consume_creates_second_consumer (env : Env) (s : ServerState)
    (peer : Peer) (producerId : ProducerId) (caps : Caps) (cid : ConsumerId)
    (ce : ConsumerEntry) (ppid : PeerId) (pp : Peer) (pe : ProducerEntry)
    (t : TransportId × TransportEntry)
    (hheld : aget peer.consumers cid = some ce)
    (hce : ce.producerId = producerId)
    (hfresh : aget peer.consumers s.nextId = none)
    (hfind : findProducerHolder s.peers producerId = some (ppid, pp, pe))
    (hcan : env.canConsume producerId caps = true)
    (hrecv : findRecvTransport peer.transports = some t) :
    ∃ s' out peer',
      createConsumerForRemoteProducer env s peer producerId caps =
        Except.ok (s', out) ∧
      aget s'.peers peer.id = some peer' ∧
      aget peer'.consumers cid = some ce ∧
      aget peer'.consumers s.nextId = some
        { producerId := producerId, producerPeerId := ppid, kind := pe.kind
          rtpParameters := env.rtpParams producerId caps, paused := true } ∧
      peer'.consumers.length = peer.consumers.length + 1 := by
  have hne : cid ≠ s.nextId := by
    intro he
    rw [he, hfresh] at hheld
    exact Option.noConfusion hheld
  refine ⟨{ s with
      peers := aset s.peers peer.id
        { peer with
            consumers := aset peer.consumers s.nextId
              ⟨producerId, ppid, pe.kind, env.rtpParams producerId caps, true⟩ }
      nextId := s.nextId + 1 },
    sendMessage env peer.id
      (OutMsg.consumed s.nextId producerId ppid pe.kind
        (env.rtpParams producerId caps)),
    { peer with
        consumers := aset peer.consumers s.nextId
          ⟨producerId, ppid, pe.kind, env.rtpParams producerId caps, true⟩ },
    ?_, ?_, ?_, ?_, ?_⟩
  · simp [createConsumerForRemoteProducer, hfind, hcan, hrecv]
  · simp [aget_aset_self]
  · rw [aget_aset_ne peer.consumers s.nextId cid _ hne]
    exact hheld
  · exact aget_aset_self peer.consumers s.nextId _
  · exact length_aset_of_none peer.consumers s.nextId _ hfresh

theorem duplicate_consume_creates_second_consumer_witness :
    ∃ s' out peer',
      createConsumerForRemoteProducer envT stateAB peerA 5 0 =
        Except.ok (s', out) ∧
      aget s'.peers 1 = some peer' ∧
      aget peer'.consumers 100 = some
        { producerId := 5, producerPeerId := 2, kind := "video"
          rtpParameters := 7, paused := false } ∧
      aget peer'.consumers 101 = some
        { producerId := 5, producerPeerId := 2, kind := "video"
          rtpParameters := 7, paused := true } ∧
      peer'.consumers.length = peerA.consumers.length + 1 :=
  duplicate_consume_creates_second_consumer envT stateAB peerA 5 0 100
    { producerId := 5, producerPeerId := 2, kind := "video"
      rtpParameters := 7, paused := false }
    2 peerB { kind := "video" } (10, { direction := Direction.recv })
    (by decide) (by decide) (by decide) (by decide) (by decide) (by decide)

end MSServer

namespace MSServer

/-- C9: the `consume` handler locates the producer by scanning all
connected peers process-wide and never consults room membership: even
when the producer's owner is in a different room than the requester (or
in none), the request succeeds, the consumer is created and the
`consumed` reply is sent, provided only that `canConsume` passes and the
requester has a recv transport. -/
theorem consume_ignores_room_membership (env : Env) (s : ServerState)
    (peer : Peer) (producerId : ProducerId) (caps : Caps)
    (ppid : PeerId) (pp : Peer) (pe : ProducerEntry)
    (t : TransportId × TransportEntry)
    (hfind : findProducerHolder s.peers producerId = some (ppid, pp, pe))
    (hroom : pp.roomId ≠ peer.roomId)
    (hcan : env.canConsume producerId caps = true)
    (hrecv : findRecvTransport peer.transports = some t)
    (hopen : env.isOpen peer.id = true) :
    createConsumerForRemoteProducer env s peer producerId caps =
      Except.ok
        ({ s with
            peers := aset s.peers peer.id
              { peer with
                  consumers := aset peer.consumers s.nextId
                    ⟨producerId, ppid, pe.kind, env.rtpParams producerId caps, true⟩ }
            nextId := s.nextId + 1 },
         [(peer.id, OutMsg.consumed s.nextId producerId ppid pe.kind
            (env.rtpParams producerId caps))]) ∧
    (∃ peer',
      aget ({ s with
          peers := aset s.peers peer.id
            { peer with
                consumers := aset peer.consumers s.nextId
                  ⟨producerId, ppid, pe.kind, env.rtpParams producerId caps, true⟩ }
          nextId := s.nextId + 1 } : ServerState).peers peer.id = some peer' ∧
      aget peer'.consumers s.nextId = some
        ⟨producerId, ppid, pe.kind, env.rtpParams producerId caps, true⟩) := by
  constructor
  · simp [createConsumerForRemoteProducer, hfind, hcan, hrecv, sendMessage, hopen]
  · refine ⟨{ peer with
        consumers := aset peer.consumers s.nextId
          ⟨producerId, ppid, pe.kind, env.rtpParams producerId caps, true⟩ },
      ?_, aget_aset_self peer.consumers s.nextId _⟩
    exact aget_aset_self s.peers peer.id _

theorem consume_ignores_room_membership_witness :
    createConsumerForRemoteProducer envT stateCrossRoom
      { peerA with consumers := [] } 5 0 =
    Except.ok
      ({ stateCrossRoom with
          peers := aset stateCrossRoom.peers 1
            { { peerA with consumers := [] } with
                consumers := aset [] 200 ⟨5, 3, "video", 7, true⟩ }
          nextId := 201 },
       [(1, OutMsg.consumed 200 5 3 "video" 7)]) ∧
    (∃ peer',
      aget ({ stateCrossRoom with
          peers := aset stateCrossRoom.peers 1
            { { peerA with consumers := [] } with
                consumers := aset [] 200 ⟨5, 3, "video", 7, true⟩ }
          nextId := 201 } : ServerState).peers 1 = some peer' ∧
      aget peer'.consumers 200 = some ⟨5, 3, "video", 7, true⟩) :=
  consume_ignores_room_membership envT stateCrossRoom
    { peerA with consumers := [] } 5 0 3 peerD { kind := "video" }
    (10, { direction := Direction.recv })
    (by decide) (by decide) (by decide) (by decide) (by decide)

/-- C4: the `roomJoined` reply carries the membership snapshot captured
before the joining peer is inserted: neither the peers list nor the
existingProducers list ever mentions the joining peer; a peer joining an
absent or empty room gets empty lists; and the peer is a member of the
room in the post-state, so the snapshot indeed predates insertion. -/
theorem joinRoom_snapshot_excludes_joiner (env : Env) (s : ServerState)
    (peer : Peer) (roomId : RoomId)
    (hopen : env.isOpen peer.id = true) :
    ∃ ep info rest,
      (addPeerToRoomAndNotifyOthers env s peer roomId).2 =
        (peer.id, OutMsg.roomJoined roomId ep info) :: rest ∧
      peer.id ∉ ep ∧
      peer.id ∉ info.map Prod.fst ∧
      (roomMembers s roomId = [] → ep = [] ∧ info = []) ∧
      peer.id ∈ roomMembers (addPeerToRoomAndNotifyOthers env s peer roomId).1 roomId := by
  rcases hg : aget s.rooms roomId with _ | room
  · refine ⟨[], [], [], ?_, ?_, ?_, ?_, ?_⟩
    · simp [addPeerToRoomAndNotifyOthers, hg, sendMessage, hopen, sdel,
        collectProducersInfo, notifyFrames]
    · simp
    · simp
    · intro _
      exact ⟨rfl, rfl⟩
    · simp [addPeerToRoomAndNotifyOthers, hg, roomMembers, aget_aset_self,
        mem_sadd_self]
  · refine ⟨sdel room.peers peer.id,
      collectProducersInfo s.peers (sdel room.peers peer.id),
      notifyFrames env s.peers (sdel room.peers peer.id) (OutMsg.newPeer peer.id),
      ?_, ?_, ?_, ?_, ?_⟩
    · simp [addPeerToRoomAndNotifyOthers, hg, sendMessage, hopen]
    · exact not_mem_sdel_self _ _
    · intro hmem
      rcases List.mem_map.mp hmem with ⟨x, hx, hfst⟩
      have hxin : x.1 ∈ sdel room.peers peer.id :=
        fst_mem_of_mem_collectProducersInfo hx
      rw [hfst] at hxin
      exact not_mem_sdel_self room.peers peer.id hxin
    · intro hempty
      simp only [roomMembers, hg] at hempty
      rw [hempty]
      exact ⟨rfl, rfl⟩
    · simp [addPeerToRoomAndNotifyOthers, hg, roomMembers, aget_aset_self,
        mem_sadd_self]

theorem joinRoom_snapshot_excludes_joiner_witness :
    ∃ ep info rest,
      (addPeerToRoomAndNotifyOthers envT stateC peerC 0).2 =
        (1, OutMsg.roomJoined 0 ep info) :: rest ∧
      (1 : PeerId) ∉ ep ∧
      (1 : PeerId) ∉ info.map Prod.fst ∧
      (roomMembers stateC 0 = [] → ep = [] ∧ info = []) ∧
      (1 : PeerId) ∈ roomMembers (addPeerToRoomAndNotifyOthers envT stateC peerC 0).1 0 :=
  joinRoom_snapshot_excludes_joiner envT stateC peerC 0 (by decide)

end MSServer

namespace MSServer

/-- C6: when the engine's `canConsume` predicate rejects a consume
request, the flow completes with the whole state (in particular the
requesting peer's consumer map) unchanged, the only effect is an `error`
reply to the requester, and processing of any further queued messages —
including other consume requests — continues from the same state as if
the failing request had not happened. -/
theorem consume_incompatible_is_isolated_failure (env : Env) (s : ServerState)
    (peerId : PeerId) (peer : Peer) (producerId : ProducerId) (caps : Caps)
    (rest : List (PeerId × InMsg))
    (hpeer : aget s.peers peerId = some peer)
    (hcan : env.canConsume producerId caps = false) :
    (routeIncomingMessage env s peerId (InMsg.consume producerId caps)).state = s ∧
    (∃ e, (routeIncomingMessage env s peerId (InMsg.consume producerId caps)).out =
      sendMessage env peerId (OutMsg.errorMsg e)) ∧
    (processMessages env s ((peerId, InMsg.consume producerId caps) :: rest)).1 =
      (processMessages env s rest).1 ∧
    (processMessages env s ((peerId, InMsg.consume producerId caps) :: rest)).2 =
      (routeIncomingMessage env s peerId (InMsg.consume producerId caps)).out ++
        (processMessages env s rest).2 := by
  have hkey : ∃ e, createConsumerForRemoteProducer env s peer producerId caps =
      Except.error e := by
    rcases hf : findProducerHolder s.peers producerId with _ | trip
    · exact ⟨"Producer not found", by simp [createConsumerForRemoteProducer, hf]⟩
    · obtain ⟨ppid, pp, pe⟩ := trip
      exact ⟨"Cannot consume", by simp [createConsumerForRemoteProducer, hf, hcan]⟩
  obtain ⟨e, he⟩ := hkey
  have hroute : routeIncomingMessage env s peerId (InMsg.consume producerId caps) =
      { state := s, out := sendMessage env peerId (OutMsg.errorMsg e), warn := [] } := by
    simp [routeIncomingMessage, hpeer, he, wrapCatch]
  refine ⟨by rw [hroute], ⟨e, by rw [hroute]⟩, ?_, ?_⟩
  · simp only [processMessages, hroute]
  · simp only [processMessages, hroute]

theorem consume_incompatible_is_isolated_failure_witness :
    (routeIncomingMessage envF stateAB 1 (InMsg.consume 5 0)).state = stateAB ∧
    (∃ e, (routeIncomingMessage envF stateAB 1 (InMsg.consume 5 0)).out =
      sendMessage envF 1 (OutMsg.errorMsg e)) ∧
    (processMessages envF stateAB [(1, InMsg.consume 5 0)]).1 =
      (processMessages envF stateAB []).1 ∧
    (processMessages envF stateAB [(1, InMsg.consume 5 0)]).2 =
      (routeIncomingMessage envF stateAB 1 (InMsg.consume 5 0)).out ++
        (processMessages envF stateAB []).2 :=
  consume_incompatible_is_isolated_failure envF stateAB 1 peerA 5 0 []
    (by decide) (by decide)

/-- C8: for a consumer the peer holds, two sequential `resumeConsumer`
requests are both accepted — each run forwards the resume to the engine
unconditionally and answers `consumerResumed` — and the second produces
no further state change: after the first request the consumer's paused
flag is cleared, and the second request leaves the state exactly as the
first left it. -/
theorem resumeConsumer_idempotent (env : Env) (s : ServerState)
    (peerId : PeerId) (peer : Peer) (cid : ConsumerId) (ce : ConsumerEntry)
    (hpeer : aget s.peers peerId = some peer)
    (hid : peer.id = peerId)
    (hce : aget peer.consumers cid = some ce)
    (hopen : env.isOpen peerId = true) :
    (routeIncomingMessage env s peerId (InMsg.resumeConsumer cid)).out =
      [(peerId, OutMsg.consumerResumed cid)] ∧
    (routeIncomingMessage env
        (routeIncomingMessage env s peerId (InMsg.resumeConsumer cid)).state
        peerId (InMsg.resumeConsumer cid)).out =
      [(peerId, OutMsg.consumerResumed cid)] ∧
    (routeIncomingMessage env
        (routeIncomingMessage env s peerId (InMsg.resumeConsumer cid)).state
        peerId (InMsg.resumeConsumer cid)).state =
      (routeIncomingMessage env s peerId (InMsg.resumeConsumer cid)).state ∧
    (∃ peer',
      aget (routeIncomingMessage env s peerId (InMsg.resumeConsumer cid)).state.peers
        peerId = some peer' ∧
      aget peer'.consumers cid = some { ce with paused := false }) := by
  subst hid
  have h1 : resumePausedConsumer env s peer cid =
      Except.ok
        ({ s with
            peers := aset s.peers peer.id
              { peer with
                  consumers := aset peer.consumers cid { ce with paused := false } } },
         [(peer.id, OutMsg.consumerResumed cid)]) := by
    simp [resumePausedConsumer, hce, sendMessage, hopen]
  have hr1 : routeIncomingMessage env s peer.id (InMsg.resumeConsumer cid) =
      { state := { s with
          peers := aset s.peers peer.id
            { peer with
                consumers := aset peer.consumers cid { ce with paused := false } } }
        out := [(peer.id, OutMsg.consumerResumed cid)]
        warn := [] } := by
    simp [routeIncomingMessage, hpeer, h1, wrapCatch]
  have hpeer1 : aget (aset s.peers peer.id
      { peer with
          consumers := aset peer.consumers cid { ce with paused := false } }) peer.id =
      some { peer with
          consumers := aset peer.consumers cid { ce with paused := false } } :=
    aget_aset_self s.peers peer.id _
  have hce1 : aget (aset peer.consumers cid { ce with paused := false }) cid =
      some { ce with paused := false } :=
    aget_aset_self peer.consumers cid _
  have h2 : resumePausedConsumer env
      { s with
          peers := aset s.peers peer.id
            { peer with
                consumers := aset peer.consumers cid { ce with paused := false } } }
      { peer with
          consumers := aset peer.consumers cid { ce with paused := false } } cid =
      Except.ok
        ({ s with
            peers := aset s.peers peer.id
              { peer with
                  consumers := aset peer.consumers cid { ce with paused := false } } },
         [(peer.id, OutMsg.consumerResumed cid)]) := by
    simp [resumePausedConsumer, hce1, sendMessage, hopen, aset_aset_self]
  have hr2 : routeIncomingMessage env
      { s with
          peers := aset s.peers peer.id
            { peer with
                consumers := aset peer.consumers cid { ce with paused := false } } }
      peer.id (InMsg.resumeConsumer cid) =
      { state := { s with
          peers := aset s.peers peer.id
            { peer with
                consumers := aset peer.consumers cid { ce with paused := false } } }
        out := [(peer.id, OutMsg.consumerResumed cid)]
        warn := [] } := by
    simp [routeIncomingMessage, hpeer1, h2, wrapCatch]
  rw [hr1]
  refine ⟨rfl, ?_, ?_, ?_⟩
  · rw [hr2]
  · rw [hr2]
  · exact ⟨_, hpeer1, hce1⟩

theorem resumeConsumer_idempotent_witness :
    (routeIncomingMessage envT stateAB 1 (InMsg.resumeConsumer 100)).out =
      [(1, OutMsg.consumerResumed 100)] ∧
    (routeIncomingMessage envT
        (routeIncomingMessage envT stateAB 1 (InMsg.resumeConsumer 100)).state
        1 (InMsg.resumeConsumer 100)).out =
      [(1, OutMsg.consumerResumed 100)] ∧
    (routeIncomingMessage envT
        (routeIncomingMessage envT stateAB 1 (InMsg.resumeConsumer 100)).state
        1 (InMsg.resumeConsumer 100)).state =
      (routeIncomingMessage envT stateAB 1 (InMsg.resumeConsumer 100)).state ∧
    (∃ peer',
      aget (routeIncomingMessage envT stateAB 1
          (InMsg.resumeConsumer 100)).state.peers 1 = some peer' ∧
      aget peer'.consumers 100 = some
        { producerId := 5, producerPeerId := 2, kind := "video"
          rtpParameters := 7, paused := false }) :=
  resumeConsumer_idempotent envT stateAB 1 peerA 100
    { producerId := 5, producerPeerId := 2, kind := "video"
      rtpParameters := 7, paused := false }
    (by decide) (by decide) (by decide) (by decide)

end MSServer

namespace MSServer

/-- C7: when a peer in room `rid` disconnects while other members remain
(all registered with OPEN sockets), every remaining member gets exactly
one `peerLeft` event carrying the peer's id, the room is removed from the
registry iff the remaining membership is empty, and the disconnecting
peer's removal from the peer registry is the very last event of the
trace, after every notification. -/
theorem disconnect_notifies_and_removes_peer_last (env : Env) (s : ServerState)
    (peerId : PeerId) (peer : Peer) (rid : RoomId) (room : Room)
    (hpeer : aget s.peers peerId = some peer)
    (hrid : peer.roomId = some rid)
    (hroom : aget s.rooms rid = some room)
    (hnd : (sdel room.peers peerId).Nodup)
    (hmem : ∀ q ∈ sdel room.peers peerId,
      (aget s.peers q).isSome = true ∧ env.isOpen q = true) :
    (∀ q ∈ sdel room.peers peerId,
      countEvt (Evt.sent q (OutMsg.peerLeft peerId))
        (handlePeerDisconnection env s peerId).2 = 1) ∧
    (aget (handlePeerDisconnection env s peerId).1.rooms rid = none ↔
      sdel room.peers peerId = []) ∧
    (handlePeerDisconnection env s peerId).2.getLast? =
      some (Evt.peerRemoved peerId) ∧
    aget (handlePeerDisconnection env s peerId).1.peers peerId = none := by
  have hnotif : notifyFrames env s.peers (sdel room.peers peerId)
      (OutMsg.peerLeft peerId) =
      (sdel room.peers peerId).map (fun q => (q, OutMsg.peerLeft peerId)) :=
    notifyFrames_all_open hmem
  by_cases hemp : (sdel room.peers peerId).isEmpty
  · have hnil : sdel room.peers peerId = [] := by
      cases h : sdel room.peers peerId with
      | nil => rfl
      | cons a l => rw [h] at hemp; simp [List.isEmpty] at hemp
    have hrun : handlePeerDisconnection env s peerId =
        ({ s with rooms := adel s.rooms rid, peers := adel s.peers peerId },
         peer.transports.map (fun kv => Evt.closedTransport kv.1) ++
           [Evt.roomDeleted rid, Evt.peerRemoved peerId]) := by
      simp [handlePeerDisconnection, hpeer, hrid, hroom, hnil, hemp,
        notifyFrames]
    refine ⟨?_, ?_, ?_, ?_⟩
    · intro q hq
      rw [hnil] at hq
      simp at hq
    · rw [hrun, hnil]
      simp [aget_adel_self]
    · rw [hrun]
      rw [show peer.transports.map (fun kv => Evt.closedTransport kv.1) ++
          [Evt.roomDeleted rid, Evt.peerRemoved peerId] =
          (peer.transports.map (fun kv => Evt.closedTransport kv.1) ++
            [Evt.roomDeleted rid]) ++ [Evt.peerRemoved peerId] by
        simp]
      exact getLast?_append_singleton _ _
    · rw [hrun]
      exact aget_adel_self s.peers peerId
  · have hrun : handlePeerDisconnection env s peerId =
        ({ s with
            rooms := aset s.rooms rid { room with peers := sdel room.peers peerId },
            peers := adel s.peers peerId },
         peer.transports.map (fun kv => Evt.closedTransport kv.1) ++
           ((sdel room.peers peerId).map
             (fun q => Evt.sent q (OutMsg.peerLeft peerId))) ++
           [Evt.peerRemoved peerId]) := by
      simp [handlePeerDisconnection, hpeer, hrid, hroom, hemp, hnotif,
        List.map_map, Function.comp]
    refine ⟨?_, ?_, ?_, ?_⟩
    · intro q hq
      rw [hrun]
      simp only [countEvt_append]
      rw [countEvt_sent_map_closed, countEvt_sent_map_sent,
        countNat_eq_one_of_nodup hnd hq]
      simp [countEvt]
    · rw [hrun]
      constructor
      · intro hnone
        rw [aget_aset_self] at hnone
        exact Option.noConfusion hnone
      · intro hnil
        rw [hnil] at hemp
        simp [List.isEmpty] at hemp
    · rw [hrun]
      exact getLast?_append_singleton _ _
    · rw [hrun]
      exact aget_adel_self s.peers peerId

theorem disconnect_notifies_and_removes_peer_last_witness :
    countEvt (Evt.sent 1 (OutMsg.peerLeft 2))
      (handlePeerDisconnection envT stateAB 2).2 = 1 :=
  (disconnect_notifies_and_removes_peer_last envT stateAB 2 peerB 0
      { id := 0, peers := [1, 2] }
      (by decide) (by decide) (by decide) (by decide) (by decide)).1
    1 (by decide)

end MSServer

namespace MSClient

open MSServer

/-- C2: the client's pending subscription queue is set from the
`roomJoined` snapshot (no consume request is issued at that point, before
any receive transport exists), and when the receive transport becomes
ready the queue is drained — one `consume` request per queued producer
reference, in FIFO order — and cleared, so an immediately repeated
receive-transport-ready event issues no further consume request. -/
theorem pending_queue_drained_once_on_recv_ready (c : ClientState)
    (tid tid2 : TransportId) (roomId : RoomId) (peersL : List PeerId)
    (eps : List (PeerId × List (ProducerId × Kind))) :
    (setupLocalMediaAndTransports c roomId peersL eps).1.pendingConsumers = eps ∧
    (setupLocalMediaAndTransports c roomId peersL eps).2 =
      [InMsg.createTransport Direction.send] ∧
    (configureTransportAndProduce c tid Direction.recv).2 =
      pendingConsumeRequests c.deviceCaps c.pendingConsumers ∧
    (configureTransportAndProduce c tid Direction.recv).1.pendingConsumers = [] ∧
    (configureTransportAndProduce c tid Direction.recv).1.recvTransport = some tid ∧
    (configureTransportAndProduce
        (configureTransportAndProduce c tid Direction.recv).1
        tid2 Direction.recv).2 = [] := by
  rcases hq : c.pendingConsumers with _ | ⟨head, tail⟩
  · have hrun : configureTransportAndProduce c tid Direction.recv =
        ({ c with recvTransport := some tid }, []) := by
      simp [configureTransportAndProduce, hq]
    refine ⟨rfl, rfl, ?_, ?_, ?_, ?_⟩
    · rw [hrun, hq]
      rfl
    · rw [hrun]
      simp [hq]
    · rw [hrun]
    · rw [hrun]
      simp [configureTransportAndProduce, hq]
  · have hrun : configureTransportAndProduce c tid Direction.recv =
        ({ c with recvTransport := some tid, pendingConsumers := [] },
         pendingConsumeRequests c.deviceCaps c.pendingConsumers) := by
      simp [configureTransportAndProduce, hq]
    refine ⟨rfl, rfl, ?_, ?_, ?_, ?_⟩
    · rw [hrun, hq]
    · rw [hrun]
    · rw [hrun]
    · rw [hrun]
      simp [configureTransportAndProduce]

end MSClient

namespace MSServer

theorem finalize_ok_out (env : Env) (s : ServerState) (peer : Peer)
    (tid : TransportId) (r : ServerState × List Frame)
    (hh : finalizeTransportConnection env s peer tid = Except.ok r) :
    ∀ f ∈ r.2, env.isOpen f.1 = true := by
  rcases hag : aget peer.transports tid with _ | te
  · simp [finalizeTransportConnection, hag] at hh
  · simp only [finalizeTransportConnection, hag, Except.ok.injEq] at hh
    subst hh
    intro f hf
    exact isOpen_of_mem_sendMessage (by simpa using hf)

theorem produce_ok_out (env : Env) (s : ServerState) (peer : Peer)
    (tid : TransportId) (kind : Kind) (r : ServerState × List Frame)
    (hh : createProducerAndBroadcastToPeers env s peer tid kind = Except.ok r) :
    ∀ f ∈ r.2, env.isOpen f.1 = true := by
  rcases hag : aget peer.transports tid with _ | te
  · simp [createProducerAndBroadcastToPeers, hag] at hh
  · simp only [createProducerAndBroadcastToPeers, hag, Except.ok.injEq] at hh
    subst hh
    intro f hf
    rcases List.mem_append.mp (by simpa using hf) with h | h
    · exact isOpen_of_mem_sendMessage h
    · rcases hrm : peer.roomId with _ | rid
      · rw [hrm] at h
        simp at h
      · rw [hrm] at h
        rcases hr2 : aget s.rooms rid with _ | room
        · simp [hr2] at h
        · simp only [hr2] at h
          exact isOpen_of_mem_notifyFrames h

theorem consume_ok_out (env : Env) (s : ServerState) (peer : Peer)
    (producerId : ProducerId) (caps : Caps) (r : ServerState × List Frame)
    (hh : createConsumerForRemoteProducer env s peer producerId caps =
      Except.ok r) :
    ∀ f ∈ r.2, env.isOpen f.1 = true := by
  rcases hfind : findProducerHolder s.peers producerId with _ | trip
  · simp [createConsumerForRemoteProducer, hfind] at hh
  · obtain ⟨ppid, pp, pe⟩ := trip
    rcases hc : env.canConsume producerId caps with _ | _
    · simp [createConsumerForRemoteProducer, hfind, hc] at hh
    · rcases hrecv : findRecvTransport peer.transports with _ | t
      · simp [createConsumerForRemoteProducer, hfind, hc, hrecv] at hh
      · simp only [createConsumerForRemoteProducer, hfind, hc, hrecv,
          Bool.true_eq_false, if_false, Except.ok.injEq] at hh
        subst hh
        intro f hf
        exact isOpen_of_mem_sendMessage (by simpa using hf)

theorem resume_ok_out (env : Env) (s : ServerState) (peer : Peer)
    (cid : ConsumerId) (r : ServerState × List Frame)
    (hh : resumePausedConsumer env s peer cid = Except.ok r) :
    ∀ f ∈ r.2, env.isOpen f.1 = true := by
  rcases hce : aget peer.consumers cid with _ | ce
  · simp [resumePausedConsumer, hce] at hh
  · simp only [resumePausedConsumer, hce, Except.ok.injEq] at hh
    subst hh
    intro f hf
    exact isOpen_of_mem_sendMessage (by simpa using hf)

theorem wrapCatch_out_open (env : Env) (s : ServerState) (pid : PeerId)
    (h : Except String (ServerState × List Frame))
    (hok : ∀ r, h = Except.ok r → ∀ f ∈ r.2, env.isOpen f.1 = true) :
    ∀ f ∈ (wrapCatch env s pid h).out, env.isOpen f.1 = true := by
  cases h with
  | error e =>
    intro f hf
    exact isOpen_of_mem_sendMessage (by simpa [wrapCatch] using hf)
  | ok r =>
    intro f hf
    exact hok r rfl f (by simpa [wrapCatch] using hf)

theorem route_out_open (env : Env) (s : ServerState) (peerId : PeerId)
    (msg : InMsg) :
    ∀ f ∈ (routeIncomingMessage env s peerId msg).out, env.isOpen f.1 = true := by
  rcases hp : aget s.peers peerId with _ | peer
  · intro f hf
    simp [routeIncomingMessage, hp] at hf
  · cases msg with
    | getRouterRtpCapabilities =>
      intro f hf
      simp only [routeIncomingMessage, hp, sendRouterCapabilitiesToPeer] at hf
      exact isOpen_of_mem_sendMessage hf
    | joinRoom rid =>
      intro f hf
      simp only [routeIncomingMessage, hp, addPeerToRoomAndNotifyOthers] at hf
      rcases List.mem_append.mp hf with h | h
      · exact isOpen_of_mem_sendMessage h
      · exact isOpen_of_mem_notifyFrames h
    | createTransport d =>
      intro f hf
      simp only [routeIncomingMessage, hp, createTransportAndSendParameters] at hf
      exact isOpen_of_mem_sendMessage hf
    | connectTransport tid =>
      intro f hf
      simp only [routeIncomingMessage, hp] at hf
      exact wrapCatch_out_open env s peerId _
        (fun r hr => finalize_ok_out env s peer tid r hr) f hf
    | produce tid kind =>
      intro f hf
      simp only [routeIncomingMessage, hp] at hf
      exact wrapCatch_out_open env s peerId _
        (fun r hr => produce_ok_out env s peer tid kind r hr) f hf
    | consume producerId caps =>
      intro f hf
      simp only [routeIncomingMessage, hp] at hf
      exact wrapCatch_out_open env s peerId _
        (fun r hr => consume_ok_out env s peer producerId caps r hr) f hf
    | resumeConsumer cid =>
      intro f hf
      simp only [routeIncomingMessage, hp] at hf
      exact wrapCatch_out_open env s peerId _
        (fun r hr => resume_ok_out env s peer cid r hr) f hf
    | unknown ty =>
      intro f hf
      simp [routeIncomingMessage, hp] at hf

end MSServer

namespace MSServer

theorem finalize_state_inv (env : Env) (g : PeerId → Bool) (s : ServerState)
    (peer : Peer) (tid : TransportId) :
    (finalizeTransportConnection { env with isOpen := g } s peer tid).map
        Prod.fst =
      (finalizeTransportConnection env s peer tid).map Prod.fst := by
  rcases h : aget peer.transports tid with _ | te <;>
    simp [finalizeTransportConnection, h, Except.map]

theorem produce_state_inv (env : Env) (g : PeerId → Bool) (s : ServerState)
    (peer : Peer) (tid : TransportId) (kind : Kind) :
    (createProducerAndBroadcastToPeers { env with isOpen := g } s peer tid
        kind).map Prod.fst =
      (createProducerAndBroadcastToPeers env s peer tid kind).map Prod.fst := by
  rcases h : aget peer.transports tid with _ | te <;>
    simp [createProducerAndBroadcastToPeers, h, Except.map]

theorem consume_state_inv (env : Env) (g : PeerId → Bool) (s : ServerState)
    (peer : Peer) (producerId : ProducerId) (caps : Caps) :
    (createConsumerForRemoteProducer { env with isOpen := g } s peer producerId
        caps).map Prod.fst =
      (createConsumerForRemoteProducer env s peer producerId caps).map
        Prod.fst := by
  rcases hf : findProducerHolder s.peers producerId with _ | trip
  · simp [createConsumerForRemoteProducer, hf]
  · obtain ⟨ppid, pp, pe⟩ := trip
    rcases hc : env.canConsume producerId caps with _ | _
    · simp [createConsumerForRemoteProducer, hf, hc]
    · rcases hr : findRecvTransport peer.transports with _ | t <;>
        simp [createConsumerForRemoteProducer, hf, hc, hr, Except.map]

theorem resume_state_inv (env : Env) (g : PeerId → Bool) (s : ServerState)
    (peer : Peer) (cid : ConsumerId) :
    (resumePausedConsumer { env with isOpen := g } s peer cid).map Prod.fst =
      (resumePausedConsumer env s peer cid).map Prod.fst := by
  rcases h : aget peer.consumers cid with _ | ce <;>
    simp [resumePausedConsumer, h, Except.map]

theorem wrapCatch_state_warn_inv (env env' : Env) (s : ServerState)
    (pid : PeerId) (h h' : Except String (ServerState × List Frame))
    (heq : h'.map Prod.fst = h.map Prod.fst) :
    (wrapCatch env' s pid h').state = (wrapCatch env s pid h).state ∧
    (wrapCatch env' s pid h').warn = (wrapCatch env s pid h).warn := by
  cases h with
  | error e =>
    cases h' with
    | error e2 => simp [wrapCatch]
    | ok r2 => simp [Except.map] at heq
  | ok r =>
    cases h' with
    | error e2 => simp [Except.map] at heq
    | ok r2 =>
      simp only [Except.map, Except.ok.injEq] at heq
      simp [wrapCatch, heq]

theorem route_state_warn_inv (env : Env) (g : PeerId → Bool) (s : ServerState)
    (peerId : PeerId) (msg : InMsg) :
    (routeIncomingMessage { env with isOpen := g } s peerId msg).state =
      (routeIncomingMessage env s peerId msg).state ∧
    (routeIncomingMessage { env with isOpen := g } s peerId msg).warn =
      (routeIncomingMessage env s peerId msg).warn := by
  rcases hp : aget s.peers peerId with _ | peer
  · simp [routeIncomingMessage, hp]
  · cases msg with
    | getRouterRtpCapabilities =>
      simp [routeIncomingMessage, hp, sendRouterCapabilitiesToPeer]
    | joinRoom rid =>
      simp [routeIncomingMessage, hp, addPeerToRoomAndNotifyOthers]
    | createTransport d =>
      simp [routeIncomingMessage, hp, createTransportAndSendParameters]
    | connectTransport tid =>
      simp only [routeIncomingMessage, hp]
      exact wrapCatch_state_warn_inv env { env with isOpen := g } s peerId
        (finalizeTransportConnection env s peer tid)
        (finalizeTransportConnection { env with isOpen := g } s peer tid)
        (finalize_state_inv env g s peer tid)
    | produce tid kind =>
      simp only [routeIncomingMessage, hp]
      exact wrapCatch_state_warn_inv env { env with isOpen := g } s peerId
        (createProducerAndBroadcastToPeers env s peer tid kind)
        (createProducerAndBroadcastToPeers { env with isOpen := g } s peer tid kind)
        (produce_state_inv env g s peer tid kind)
    | consume producerId caps =>
      simp only [routeIncomingMessage, hp]
      exact wrapCatch_state_warn_inv env { env with isOpen := g } s peerId
        (createConsumerForRemoteProducer env s peer producerId caps)
        (createConsumerForRemoteProducer { env with isOpen := g } s peer producerId caps)
        (consume_state_inv env g s peer producerId caps)
    | resumeConsumer cid =>
      simp only [routeIncomingMessage, hp]
      exact wrapCatch_state_warn_inv env { env with isOpen := g } s peerId
        (resumePausedConsumer env s peer cid)
        (resumePausedConsumer { env with isOpen := g } s peer cid)
        (resume_state_inv env g s peer cid)
    | unknown ty =>
      simp [routeIncomingMessage, hp]

/-- C10: `sendMessage` emits the frame exactly when the destination
socket's readyState is OPEN and otherwise silently drops it; every frame
any handler emits goes to an OPEN socket; and the state transition and
warnings of message routing are completely independent of which sockets
are open, so no handler fails or mutates state differently because a
reply could not be delivered. -/
theorem sendMessage_open_gate_and_state_independence (env : Env)
    (g : PeerId → Bool) (s : ServerState) (peerId dest : PeerId)
    (msg : InMsg) (m : OutMsg) :
    sendMessage env dest m = (if env.isOpen dest then [(dest, m)] else []) ∧
    (∀ f ∈ (routeIncomingMessage env s peerId msg).out, env.isOpen f.1 = true) ∧
    (routeIncomingMessage { env with isOpen := g } s peerId msg).state =
      (routeIncomingMessage env s peerId msg).state ∧
    (routeIncomingMessage { env with isOpen := g } s peerId msg).warn =
      (routeIncomingMessage env s peerId msg).warn :=
  ⟨rfl, route_out_open env s peerId msg,
   (route_state_warn_inv env g s peerId msg).1,
   (route_state_warn_inv env g s peerId msg).2⟩

end MSServer
